import Mathlib

/-!
Verification of the buffer configuration layer of `vector-buffers`
(`src/lib/vector-buffers/src/config.rs`): the serde-visitor based parser
for `BufferConfig`, its serializer, and `BufferConfig::build`.

The Rust code is shallowly embedded: the serde `MapAccess` loop of
`BufferTypeVisitor::visit_map_impl` becomes structural recursion over a
list of key/value entries, `SeqAccess` becomes recursion over a list of
such entry lists, and fallible code returns `Except`.  `NonZeroUsize` and
`NonZeroU64` become subtypes of `Nat` carrying positivity (the claims under
study involve only positivity, never width bounds, so machine widths are
not modelled).  Types declared outside this file's source (the `WhenFull`
enum and the topology builder) are modelled from the specification and
marked as such in their doc comments.
-/

/-- Modelled from the spec: the `WhenFull` enum (declared in the crate root,
outside `config.rs`) has exactly three values: `block`, `drop_newest`,
`overflow`. -/
inductive WhenFull where
  | Block
  | DropNewest
  | Overflow
deriving DecidableEq, Repr

/-- Modelled from the spec: `WhenFull::default()` is `block`. -/
def whenFullDefault : WhenFull := WhenFull.Block

/-- Embedding of `std::num::NonZeroUsize`: a positive natural number. -/
def NonZeroUsize : Type := {n : Nat // 0 < n}

/-- Embedding of `std::num::NonZeroU64`: a positive natural number. -/
def NonZeroU64 : Type := {n : Nat // 0 < n}

instance : DecidableEq NonZeroUsize := fun a b =>
  decidable_of_iff (a.val = b.val) Subtype.ext_iff.symm

instance : DecidableEq NonZeroU64 := fun a b =>
  decidable_of_iff (a.val = b.val) Subtype.ext_iff.symm

/-- The private `BufferTypeKind` enum of `config.rs` (the value of the
`type` field: `memory`, `disk_v1` or `disk`). -/
inductive BufferTypeKind where
  | Memory
  | DiskV1
  | DiskV2
deriving DecidableEq, Repr

/-- The public `BufferType` enum of `config.rs`: one configured buffer
stage. -/
inductive BufferType where
  | Memory (max_events : NonZeroUsize) (when_full : WhenFull)
  | DiskV1 (max_size : NonZeroU64) (when_full : WhenFull)
  | DiskV2 (max_size : NonZeroU64) (when_full : WhenFull)
deriving DecidableEq

/-- The `memory_buffer_default_max_events` constant of `config.rs`. -/
def memory_buffer_default_max_events : NonZeroUsize := ⟨500, by decide⟩

/-- The public `BufferConfig` struct of `config.rs`: an ordered list of
stages. -/
structure BufferConfig where
  stages : List BufferType
deriving DecidableEq

/-- A scalar value appearing in the declarative config input, as handed to
`map.next_value()`: the fields under study are strings (`type`,
`when_full`) and integers (`max_events`, `max_size`). -/
inductive RawValue where
  | str (s : String)
  | nat (n : Nat)
deriving DecidableEq, Repr

/-- Embedding of serde's `de::Error` values as produced by the visitor
code in `config.rs`: `duplicate_field`, `unknown_field`, `missing_field`,
and the invalid-value errors produced by the deserializers of the field
value types themselves. -/
inductive DeError where
  | duplicateField (field : String)
  | unknownField (field : String) (expected : List String)
  | missingField (field : String)
  | invalidValue (field : String)
deriving DecidableEq, Repr

/-- The `ALL_FIELDS` constant of `config.rs`. -/
def ALL_FIELDS : List String := ["type", "max_events", "max_size", "when_full"]

/-- Whether an `Except` computation failed. -/
def Except.isError : Except ε α → Bool
  | Except.error _ => true
  | Except.ok _ => false

/-- Deserialization of `BufferTypeKind` (the serde derive with renames
`memory`, `disk_v1`, `disk` in `config.rs`). -/
def parseBufferTypeKind : RawValue → Except DeError BufferTypeKind
  | RawValue.str "memory" => Except.ok BufferTypeKind.Memory
  | RawValue.str "disk_v1" => Except.ok BufferTypeKind.DiskV1
  | RawValue.str "disk" => Except.ok BufferTypeKind.DiskV2
  | _ => Except.error (DeError.invalidValue "type")

/-- Deserialization of `NonZeroUsize` for the `max_events` field: a
non-zero integer; zero is an invalid value. -/
def parseNonZeroUsize (v : RawValue) : Except DeError NonZeroUsize :=
  match v with
  | RawValue.nat n =>
    if h : 0 < n then Except.ok ⟨n, h⟩
    else Except.error (DeError.invalidValue "max_events")
  | _ => Except.error (DeError.invalidValue "max_events")

/-- Deserialization of `NonZeroU64` for the `max_size` field: a non-zero
integer; zero is an invalid value. -/
def parseNonZeroU64 (v : RawValue) : Except DeError NonZeroU64 :=
  match v with
  | RawValue.nat n =>
    if h : 0 < n then Except.ok ⟨n, h⟩
    else Except.error (DeError.invalidValue "max_size")
  | _ => Except.error (DeError.invalidValue "max_size")

/-- Modelled from the spec: deserialization of `WhenFull` (declared
outside `config.rs`), accepting `block`, `drop_newest`, `overflow`. -/
def parseWhenFull : RawValue → Except DeError WhenFull
  | RawValue.str "block" => Except.ok WhenFull.Block
  | RawValue.str "drop_newest" => Except.ok WhenFull.DropNewest
  | RawValue.str "overflow" => Except.ok WhenFull.Overflow
  | _ => Except.error (DeError.invalidValue "when_full")

/-- The four mutable `Option` locals of
`BufferTypeVisitor::visit_map_impl` while its key loop runs. -/
structure FieldState where
  kind : Option BufferTypeKind := none
  max_events : Option NonZeroUsize := none
  max_size : Option NonZeroU64 := none
  when_full : Option WhenFull := none
deriving DecidableEq

/-- The body of the `while let Some(key) = map.next_key()` loop of
`BufferTypeVisitor::visit_map_impl` for one key/value entry: matches the
key, rejects a duplicate of a recognized key and any unrecognized key,
otherwise records the deserialized value. -/
def stepField (s : FieldState) (k : String) (v : RawValue) : Except DeError FieldState :=
  if k = "type" then
    if s.kind.isSome then Except.error (DeError.duplicateField "type")
    else
      match parseBufferTypeKind v with
      | Except.error e => Except.error e
      | Except.ok x => Except.ok { s with kind := some x }
  else if k = "max_events" then
    if s.max_events.isSome then Except.error (DeError.duplicateField "max_events")
    else
      match parseNonZeroUsize v with
      | Except.error e => Except.error e
      | Except.ok x => Except.ok { s with max_events := some x }
  else if k = "max_size" then
    if s.max_size.isSome then Except.error (DeError.duplicateField "max_size")
    else
      match parseNonZeroU64 v with
      | Except.error e => Except.error e
      | Except.ok x => Except.ok { s with max_size := some x }
  else if k = "when_full" then
    if s.when_full.isSome then Except.error (DeError.duplicateField "when_full")
    else
      match parseWhenFull v with
      | Except.error e => Except.error e
      | Except.ok x => Except.ok { s with when_full := some x }
  else
    Except.error (DeError.unknownField k ALL_FIELDS)

/-- The `while let Some(key) = map.next_key()` loop of
`BufferTypeVisitor::visit_map_impl`: runs `stepField` over the entries in
order, stopping at the first error. -/
def readFields : List (String × RawValue) → FieldState → Except DeError FieldState
  | [], s => Except.ok s
  | (k, v) :: rest, s =>
    match stepField s k v with
    | Except.error e => Except.error e
    | Except.ok s => readFields rest s

/-- The tail of `BufferTypeVisitor::visit_map_impl` after the key loop:
defaulting of `type` and `when_full`, the per-kind sizing-field checks,
and construction of the `BufferType` value. -/
def finishFields (s : FieldState) : Except DeError BufferType :=
  let kind := s.kind.getD BufferTypeKind.Memory
  let wf := s.when_full.getD whenFullDefault
  match kind with
  | BufferTypeKind.Memory =>
    if s.max_size.isSome then
      Except.error (DeError.unknownField "max_size" ["type", "max_events", "when_full"])
    else
      Except.ok (BufferType.Memory (s.max_events.getD memory_buffer_default_max_events) wf)
  | BufferTypeKind.DiskV1 =>
    if s.max_events.isSome then
      Except.error (DeError.unknownField "max_events" ["type", "max_size", "when_full"])
    else
      match s.max_size with
      | some ms => Except.ok (BufferType.DiskV1 ms wf)
      | none => Except.error (DeError.missingField "max_size")
  | BufferTypeKind.DiskV2 =>
    if s.max_events.isSome then
      Except.error (DeError.unknownField "max_events" ["type", "max_size", "when_full"])
    else
      match s.max_size with
      | some ms => Except.ok (BufferType.DiskV2 ms wf)
      | none => Except.error (DeError.missingField "max_size")

/-- Embedding of `BufferTypeVisitor::visit_map_impl`: the key loop followed
by the construction tail. -/
def visit_map_impl (entries : List (String × RawValue)) : Except DeError BufferType :=
  match readFields entries {} with
  | Except.error e => Except.error e
  | Except.ok s => finishFields s

/-- The declarative input handed to `BufferConfig`'s
`deserializer.deserialize_any`: either a single map of fields (one stage
object) or a sequence of such maps. -/
inductive DeValue where
  | map (entries : List (String × RawValue))
  | seq (elems : List (List (String × RawValue)))
deriving DecidableEq

/-- Embedding of `BufferConfigVisitor::visit_seq`: each element is
deserialized as a `BufferType` (whose deserializer is
`visit_map_impl`) and pushed in order. -/
def visit_seq : List (List (String × RawValue)) → Except DeError (List BufferType)
  | [] => Except.ok []
  | e :: rest =>
    match visit_map_impl e with
    | Except.error err => Except.error err
    | Except.ok st =>
      match visit_seq rest with
      | Except.error err => Except.error err
      | Except.ok sts => Except.ok (st :: sts)

/-- Embedding of `BufferConfig`'s `Deserialize` impl
(`deserialize_any(BufferConfigVisitor)`): a map input goes through
`visit_map` (one stage), a sequence input through `visit_seq`. -/
def BufferConfig.deserialize : DeValue → Except DeError BufferConfig
  | DeValue.map entries =>
    match visit_map_impl entries with
    | Except.error e => Except.error e
    | Except.ok st => Except.ok { stages := [st] }
  | DeValue.seq elems =>
    match visit_seq elems with
    | Except.error e => Except.error e
    | Except.ok sts => Except.ok { stages := sts }

/-- Modelled from the spec: the serialized name of each `WhenFull` value
(the enum's serde derive lives outside `config.rs`). -/
def WhenFull.serializeStr : WhenFull → String
  | WhenFull.Block => "block"
  | WhenFull.DropNewest => "drop_newest"
  | WhenFull.Overflow => "overflow"

/-- The derived `Serialize` of `BufferType` (`#[serde(tag = "type")]` with
variant renames `memory`, `disk_v1`, `disk`): a map with the tag first and
the variant's fields in declaration order. -/
def BufferType.serializeEntries : BufferType → List (String × RawValue)
  | BufferType.Memory me wf =>
    [("type", RawValue.str "memory"), ("max_events", RawValue.nat me.val),
     ("when_full", RawValue.str wf.serializeStr)]
  | BufferType.DiskV1 ms wf =>
    [("type", RawValue.str "disk_v1"), ("max_size", RawValue.nat ms.val),
     ("when_full", RawValue.str wf.serializeStr)]
  | BufferType.DiskV2 ms wf =>
    [("type", RawValue.str "disk"), ("max_size", RawValue.nat ms.val),
     ("when_full", RawValue.str wf.serializeStr)]

/-- Embedding of `impl Serialize for BufferConfig`: zero stages is an
error, one stage serializes as the bare stage object, several as the
list. -/
def BufferConfig.serialize (c : BufferConfig) : Except String DeValue :=
  match c.stages with
  | [] => Except.error "buffer config cannot be empty when serializing"
  | [st] => Except.ok (DeValue.map st.serializeEntries)
  | sts => Except.ok (DeValue.seq (sts.map BufferType.serializeEntries))

/-- The `BufferBuildError` enum of `config.rs`.  Its variants are exactly
`RequiresDataDir`, `FailedToBuildTopology` and `InvalidMaxEvents` (the
`TopologyError` payload of `FailedToBuildTopology` is not modelled). -/
inductive BufferBuildError where
  | RequiresDataDir
  | FailedToBuildTopology
  | InvalidMaxEvents
deriving DecidableEq, Repr

/-- A stage as registered with the topology builder: the arguments of the
`MemoryBuffer::new`, `DiskV1Buffer::new` and `DiskV2Buffer::new` calls made
by `BufferType::add_to_builder` (paths as strings). -/
inductive BuiltStage where
  | memory (max_events : NonZeroUsize)
  | diskV1 (id : String) (data_dir : String) (max_size : NonZeroU64)
  | diskV2 (id : String) (data_dir : String) (max_size : NonZeroU64)
deriving DecidableEq

/-- The `TopologyBuilder` as visible from `config.rs`: the ordered list of
`(stage, when_full)` pairs registered through `TopologyBuilder::stage`. -/
structure TopologyBuilder where
  stages : List (BuiltStage × WhenFull) := []
deriving DecidableEq

/-- The `TopologyBuilder::stage` call as used by `add_to_builder`: appends
a stage with its policy. -/
def TopologyBuilder.stage (b : TopologyBuilder) (st : BuiltStage) (wf : WhenFull) :
    TopologyBuilder :=
  ⟨b.stages ++ [(st, wf)]⟩

/-- Embedding of `BufferType::add_to_builder`: a memory stage is always
added; a disk stage requires `data_dir` and fails with `RequiresDataDir`
when it is `None`. -/
def BufferType.add_to_builder (bt : BufferType) (b : TopologyBuilder)
    (data_dir : Option String) (id : String) : Except BufferBuildError TopologyBuilder :=
  match bt with
  | BufferType.Memory max_events when_full =>
    Except.ok (b.stage (BuiltStage.memory max_events) when_full)
  | BufferType.DiskV1 max_size when_full =>
    match data_dir with
    | none => Except.error BufferBuildError.RequiresDataDir
    | some d => Except.ok (b.stage (BuiltStage.diskV1 id d max_size) when_full)
  | BufferType.DiskV2 max_size when_full =>
    match data_dir with
    | none => Except.error BufferBuildError.RequiresDataDir
    | some d => Except.ok (b.stage (BuiltStage.diskV2 id d max_size) when_full)

/-- The wired topology produced by a successful build, abstracted to the
effective stage chain (the `(Sender, Receiver, Acker)` handles are runtime
objects; their behavior is determined by this chain). -/
structure BuiltTopology where
  stages : List (BuiltStage × WhenFull)
deriving DecidableEq

/-- The terminal-stage policy degradation performed by the topology
builder: `overflow` on the last stage is treated as `block`; every other
stage keeps its policy. -/
def degradeTerminal : List (BuiltStage × WhenFull) → List (BuiltStage × WhenFull)
  | [] => []
  | [(st, wf)] => [(st, if wf = WhenFull.Overflow then WhenFull.Block else wf)]
  | p :: q :: rest => p :: degradeTerminal (q :: rest)

/-- Modelled from the spec: `TopologyBuilder::build` (defined in
`topology/builder.rs`, outside `config.rs`) wires the registered stages
into a chain; an empty chain is a topology error, and a terminal stage
whose policy is `overflow` is treated as `block`.  Disk I/O failure
(`FailedToOpenDisk`) is not modelled: the model is pure. -/
def TopologyBuilder.build (b : TopologyBuilder) : Except BufferBuildError BuiltTopology :=
  match b.stages with
  | [] => Except.error BufferBuildError.FailedToBuildTopology
  | sts => Except.ok ⟨degradeTerminal sts⟩

/-- The `for stage in &self.stages` loop of `BufferConfig::build`: each
stage is added to the builder, stopping at the first error. -/
def addStages (sts : List BufferType) (b : TopologyBuilder)
    (data_dir : Option String) (id : String) : Except BufferBuildError TopologyBuilder :=
  match sts with
  | [] => Except.ok b
  | st :: rest =>
    match st.add_to_builder b data_dir id with
    | Except.error e => Except.error e
    | Except.ok b => addStages rest b data_dir id

/-- Embedding of `BufferConfig::build`: starts from the default (empty)
builder, adds every stage in order, then builds the topology. -/
def BufferConfig.build (c : BufferConfig) (data_dir : Option String)
    (buffer_id : String) : Except BufferBuildError BuiltTopology :=
  match addStages c.stages {} data_dir buffer_id with
  | Except.error e => Except.error e
  | Except.ok b => b.build

/-- Statement helper: the stage list with the terminal stage's `when_full`
replaced by the given policy. -/
def setTerminalWhenFull (wf : WhenFull) : List BufferType → List BufferType
  | [] => []
  | [BufferType.Memory me _] => [BufferType.Memory me wf]
  | [BufferType.DiskV1 ms _] => [BufferType.DiskV1 ms wf]
  | [BufferType.DiskV2 ms _] => [BufferType.DiskV2 ms wf]
  | st :: q :: rest => st :: setTerminalWhenFull wf (q :: rest)

/-- Statement helper: the `when_full` policy of a configured stage. -/
def BufferType.whenFull : BufferType → WhenFull
  | BufferType.Memory _ wf => wf
  | BufferType.DiskV1 _ wf => wf
  | BufferType.DiskV2 _ wf => wf

/-- Statement helper: whether a configured stage is a disk variant. -/
def BufferType.isDisk : BufferType → Bool
  | BufferType.Memory _ _ => false
  | BufferType.DiskV1 _ _ => true
  | BufferType.DiskV2 _ _ => true

/-- Statement helper: whether a configured stage is specifically a
`DiskV1` (resp. not) — used to count duplicate disk variants. -/
def BufferType.isDiskV1 : BufferType → Bool
  | BufferType.DiskV1 _ _ => true
  | _ => false

/-- Statement helper: whether a configured stage is a `DiskV2`. -/
def BufferType.isDiskV2 : BufferType → Bool
  | BufferType.DiskV2 _ _ => true
  | _ => false

/-- Statement helper: the sizing value a stage carries (`max_events` for
memory, `max_size` for disk variants). -/
def BufferType.sizing : BufferType → Nat
  | BufferType.Memory me _ => me.val
  | BufferType.DiskV1 ms _ => ms.val
  | BufferType.DiskV2 ms _ => ms.val

/-- Statement helper: the `when_full` policy of the terminal (last) stage
of a configuration, when there is one. -/
def terminalWhenFull : List BufferType → Option WhenFull
  | [] => none
  | [st] => some st.whenFull
  | _ :: q :: rest => terminalWhenFull (q :: rest)

/-- Statement helper: whether the given recognized field is already
recorded in the visitor's state. -/
def fieldIsSet (s : FieldState) (k : String) : Bool :=
  if k = "type" then s.kind.isSome
  else if k = "max_events" then s.max_events.isSome
  else if k = "max_size" then s.max_size.isSome
  else if k = "when_full" then s.when_full.isSome
  else false

/-- Statement helper: how many entries of a stage object carry the given
key. -/
def countKey (entries : List (String × RawValue)) (k : String) : Nat :=
  (entries.map Prod.fst).count k

/-- Proof helper: the `(stage, policy)` pair a single `add_to_builder`
call registers (or its error), without the surrounding builder state. -/
def stagePair (bt : BufferType) (d : Option String) (i : String) :
    Except BufferBuildError (BuiltStage × WhenFull) :=
  match bt with
  | BufferType.Memory me wf => Except.ok (BuiltStage.memory me, wf)
  | BufferType.DiskV1 ms wf =>
    match d with
    | none => Except.error BufferBuildError.RequiresDataDir
    | some dd => Except.ok (BuiltStage.diskV1 i dd ms, wf)
  | BufferType.DiskV2 ms wf =>
    match d with
    | none => Except.error BufferBuildError.RequiresDataDir
    | some dd => Except.ok (BuiltStage.diskV2 i dd ms, wf)

/-- Proof helper: the pairs registered by a whole stage list, stopping at
the first error. -/
def stagePairs : List BufferType → Option String → String →
    Except BufferBuildError (List (BuiltStage × WhenFull))
  | [], _, _ => Except.ok []
  | st :: rest, d, i =>
    match stagePair st d i with
    | Except.error e => Except.error e
    | Except.ok p =>
      match stagePairs rest d i with
      | Except.error e => Except.error e
      | Except.ok ps => Except.ok (p :: ps)

/-- Proof helper: the registered pair list with the terminal pair's policy
replaced. -/
def setTerminalPairWhenFull (wf : WhenFull) :
    List (BuiltStage × WhenFull) → List (BuiltStage × WhenFull)
  | [] => []
  | [(st, _)] => [(st, wf)]
  | p :: q :: rest => p :: setTerminalPairWhenFull wf (q :: rest)

/-- Proof helper: the policy of the terminal registered pair. -/
def pairTerminalWhenFull : List (BuiltStage × WhenFull) → Option WhenFull
  | [] => none
  | [(_, wf)] => some wf
  | _ :: q :: rest => pairTerminalWhenFull (q :: rest)

lemma stepField_unknown (s : FieldState) (k : String) (v : RawValue)
    (hk : k ∉ ALL_FIELDS) :
    stepField s k v = Except.error (DeError.unknownField k ALL_FIELDS) := by
  simp only [ALL_FIELDS, List.mem_cons, List.not_mem_nil, or_false, not_or] at hk
  obtain ⟨h1, h2, h3, h4⟩ := hk
  simp [stepField, h1, h2, h3, h4]

lemma stepField_dup (s : FieldState) (k : String) (v : RawValue)
    (hset : fieldIsSet s k = true) :
    stepField s k v = Except.error (DeError.duplicateField k) := by
  by_cases h1 : k = "type"
  · subst h1
    simp only [fieldIsSet] at hset
    simp at hset
    simp [stepField, hset]
  by_cases h2 : k = "max_events"
  · subst h2
    simp only [fieldIsSet] at hset
    simp at hset
    simp [stepField, hset]
  by_cases h3 : k = "max_size"
  · subst h3
    simp only [fieldIsSet] at hset
    simp at hset
    simp [stepField, hset]
  by_cases h4 : k = "when_full"
  · subst h4
    simp only [fieldIsSet] at hset
    simp at hset
    simp [stepField, hset]
  · simp [fieldIsSet, h1, h2, h3, h4] at hset

lemma stepField_ok_self (s s' : FieldState) (k : String) (v : RawValue)
    (h : stepField s k v = Except.ok s') : fieldIsSet s' k = true := by
  unfold stepField at h
  by_cases h1 : k = "type"
  · subst h1
    rw [if_pos rfl] at h
    split at h
    · exact absurd h (by simp)
    split at h
    · exact absurd h (by simp)
    · injection h with h
      subst h
      simp [fieldIsSet]
  rw [if_neg h1] at h
  by_cases h2 : k = "max_events"
  · subst h2
    rw [if_pos rfl] at h
    split at h
    · exact absurd h (by simp)
    split at h
    · exact absurd h (by simp)
    · injection h with h
      subst h
      simp [fieldIsSet]
  rw [if_neg h2] at h
  by_cases h3 : k = "max_size"
  · subst h3
    rw [if_pos rfl] at h
    split at h
    · exact absurd h (by simp)
    split at h
    · exact absurd h (by simp)
    · injection h with h
      subst h
      simp [fieldIsSet]
  rw [if_neg h3] at h
  by_cases h4 : k = "when_full"
  · subst h4
    rw [if_pos rfl] at h
    split at h
    · exact absurd h (by simp)
    split at h
    · exact absurd h (by simp)
    · injection h with h
      subst h
      simp [fieldIsSet]
  · rw [if_neg h4] at h
    exact absurd h (by simp)

lemma stepField_ok_ne (s s' : FieldState) (k k' : String) (v : RawValue)
    (h : stepField s k v = Except.ok s') (hne : k' ≠ k) :
    fieldIsSet s' k' = fieldIsSet s k' := by
  unfold stepField at h
  by_cases h1 : k = "type"
  · subst h1
    rw [if_pos rfl] at h
    split at h
    · exact absurd h (by simp)
    split at h
    · exact absurd h (by simp)
    · injection h with h
      subst h
      simp [fieldIsSet, hne]
  rw [if_neg h1] at h
  by_cases h2 : k = "max_events"
  · subst h2
    rw [if_pos rfl] at h
    split at h
    · exact absurd h (by simp)
    split at h
    · exact absurd h (by simp)
    · injection h with h
      subst h
      simp [fieldIsSet, hne]
  rw [if_neg h2] at h
  by_cases h3 : k = "max_size"
  · subst h3
    rw [if_pos rfl] at h
    split at h
    · exact absurd h (by simp)
    split at h
    · exact absurd h (by simp)
    · injection h with h
      subst h
      simp [fieldIsSet, hne]
  rw [if_neg h3] at h
  by_cases h4 : k = "when_full"
  · subst h4
    rw [if_pos rfl] at h
    split at h
    · exact absurd h (by simp)
    split at h
    · exact absurd h (by simp)
    · injection h with h
      subst h
      simp [fieldIsSet, hne]
  · rw [if_neg h4] at h
    exact absurd h (by simp)

lemma readFields_cons (k : String) (v : RawValue) (rest : List (String × RawValue))
    (s : FieldState) :
    readFields ((k, v) :: rest) s =
      match stepField s k v with
      | Except.error e => Except.error e
      | Except.ok s' => readFields rest s' := rfl

lemma readFields_unknown_isError (entries : List (String × RawValue)) (s : FieldState)
    (h : ∃ p ∈ entries, p.1 ∉ ALL_FIELDS) :
    (readFields entries s).isError = true := by
  induction entries generalizing s with
  | nil => simp at h
  | cons hd rest ih =>
    obtain ⟨p, hp, hpk⟩ := h
    obtain ⟨k, v⟩ := hd
    rw [readFields_cons]
    rcases List.mem_cons.mp hp with heq | hmem
    · subst heq
      rw [stepField_unknown s _ v hpk]
      rfl
    · cases hstep : stepField s k v with
      | error e => rfl
      | ok s' => exact ih s' ⟨p, hmem, hpk⟩

lemma readFields_dup_isError (entries : List (String × RawValue)) (s : FieldState)
    (k : String) (_hk : k ∈ ALL_FIELDS)
    (h : 2 ≤ countKey entries k ∨ (fieldIsSet s k = true ∧ 1 ≤ countKey entries k)) :
    (readFields entries s).isError = true := by
  induction entries generalizing s with
  | nil =>
    simp only [countKey, List.map_nil, List.count_nil] at h
    rcases h with h | ⟨_, h⟩ <;> omega
  | cons hd rest ih =>
    obtain ⟨k', v⟩ := hd
    rw [readFields_cons]
    cases hstep : stepField s k' v with
    | error e => rfl
    | ok s' =>
      apply ih s'
      by_cases hkk : k = k'
      · subst hkk
        have hns : fieldIsSet s k = false := by
          by_contra hc
          rw [stepField_dup s k v (by simpa using hc)] at hstep
          exact absurd hstep (by simp)
        have hself : fieldIsSet s' k = true := stepField_ok_self s s' k v hstep
        have hcount : countKey ((k, v) :: rest) k = countKey rest k + 1 := by
          simp [countKey, List.count_cons]
        rcases h with h2 | ⟨hset, _⟩
        · right
          rw [hcount] at h2
          exact ⟨hself, by omega⟩
        · rw [hset] at hns
          exact absurd hns (by simp)
      · have hcount : countKey ((k', v) :: rest) k = countKey rest k := by
          simp [countKey, List.count_cons, hkk]
        have hfs : fieldIsSet s' k = fieldIsSet s k :=
          stepField_ok_ne s s' k' k v hstep hkk
        rw [hcount] at h
        rcases h with h2 | ⟨hset, h1⟩
        · exact Or.inl h2
        · exact Or.inr ⟨by rw [hfs]; exact hset, h1⟩

lemma visit_map_impl_isError (entries : List (String × RawValue))
    (h : (readFields entries {}).isError = true) :
    (visit_map_impl entries).isError = true := by
  unfold visit_map_impl
  cases hr : readFields entries {} with
  | error e => rfl
  | ok s =>
    rw [hr] at h
    simp [Except.isError] at h

lemma visit_seq_forall2 (elems : List (List (String × RawValue)))
    (sts : List BufferType) (h : visit_seq elems = Except.ok sts) :
    List.Forall₂ (fun e st => visit_map_impl e = Except.ok st) elems sts := by
  induction elems generalizing sts with
  | nil =>
    simp only [visit_seq] at h
    injection h with h
    subst h
    exact List.Forall₂.nil
  | cons e rest ih =>
    simp only [visit_seq] at h
    cases he : visit_map_impl e with
    | error err => rw [he] at h; exact absurd h (by simp)
    | ok st =>
      rw [he] at h
      cases hr : visit_seq rest with
      | error err => rw [hr] at h; exact absurd h (by simp)
      | ok sts' =>
        rw [hr] at h
        injection h with h
        subst h
        exact List.Forall₂.cons he (ih sts' hr)

lemma add_to_builder_eq (bt : BufferType) (b : TopologyBuilder)
    (d : Option String) (i : String) :
    bt.add_to_builder b d i =
      match stagePair bt d i with
      | Except.error e => Except.error e
      | Except.ok p => Except.ok ⟨b.stages ++ [p]⟩ := by
  cases bt <;> cases d <;> rfl

lemma addStages_eq (sts : List BufferType) (b : TopologyBuilder)
    (d : Option String) (i : String) :
    addStages sts b d i =
      match stagePairs sts d i with
      | Except.error e => Except.error e
      | Except.ok ps => Except.ok ⟨b.stages ++ ps⟩ := by
  induction sts generalizing b with
  | nil => simp [addStages, stagePairs]
  | cons st rest ih =>
    simp only [addStages, stagePairs]
    rw [add_to_builder_eq]
    cases hp : stagePair st d i with
    | error e => rfl
    | ok p =>
      simp only []
      rw [ih ⟨b.stages ++ [p]⟩]
      cases hps : stagePairs rest d i with
      | error e => rfl
      | ok ps => simp

lemma build_eq (c : BufferConfig) (d : Option String) (i : String) :
    BufferConfig.build c d i =
      match stagePairs c.stages d i with
      | Except.error e => Except.error e
      | Except.ok ps => TopologyBuilder.build ⟨ps⟩ := by
  unfold BufferConfig.build
  rw [addStages_eq]
  cases hps : stagePairs c.stages d i with
  | error e => rfl
  | ok ps => rfl

lemma topologyBuild_cons (p : BuiltStage × WhenFull) (ps : List (BuiltStage × WhenFull)) :
    TopologyBuilder.build ⟨p :: ps⟩ = Except.ok ⟨degradeTerminal (p :: ps)⟩ := rfl

lemma stagePairs_cons_ok (st : BufferType) (rest : List BufferType)
    (d : Option String) (i : String) (ps : List (BuiltStage × WhenFull))
    (h : stagePairs (st :: rest) d i = Except.ok ps) :
    ∃ p ps', ps = p :: ps' ∧ stagePair st d i = Except.ok p ∧
      stagePairs rest d i = Except.ok ps' := by
  simp only [stagePairs] at h
  cases hp : stagePair st d i with
  | error e => rw [hp] at h; exact absurd h (by simp)
  | ok p =>
    rw [hp] at h
    cases hps : stagePairs rest d i with
    | error e => rw [hps] at h; exact absurd h (by simp)
    | ok ps' =>
      rw [hps] at h
      injection h with h
      exact ⟨p, ps', h.symm, rfl, rfl⟩

lemma stagePairs_cons (st : BufferType) (rest : List BufferType)
    (d : Option String) (i : String) :
    stagePairs (st :: rest) d i =
      match stagePair st d i with
      | Except.error e => Except.error e
      | Except.ok p =>
        match stagePairs rest d i with
        | Except.error e => Except.error e
        | Except.ok ps => Except.ok (p :: ps) := rfl

lemma stagePairs_setTerminal (wf : WhenFull) (sts : List BufferType)
    (d : Option String) (i : String) :
    stagePairs (setTerminalWhenFull wf sts) d i =
      match stagePairs sts d i with
      | Except.error e => Except.error e
      | Except.ok ps => Except.ok (setTerminalPairWhenFull wf ps) := by
  induction sts with
  | nil => rfl
  | cons st rest ih =>
    cases rest with
    | nil => cases st <;> cases d <;> rfl
    | cons q rest' =>
      have hshape : setTerminalWhenFull wf (st :: q :: rest') =
          st :: setTerminalWhenFull wf (q :: rest') := by
        cases st <;> rfl
      rw [hshape, stagePairs_cons st (setTerminalWhenFull wf (q :: rest')) d i,
        stagePairs_cons st (q :: rest') d i]
      cases hp : stagePair st d i with
      | error e => rfl
      | ok p =>
        simp only []
        rw [ih]
        cases hps : stagePairs (q :: rest') d i with
        | error e => rfl
        | ok ps =>
          obtain ⟨p', ps', hps', _, _⟩ := stagePairs_cons_ok q rest' d i ps hps
          subst hps'
          rfl

lemma stagePairs_terminalWF (sts : List BufferType) (d : Option String) (i : String)
    (ps : List (BuiltStage × WhenFull)) (h : stagePairs sts d i = Except.ok ps) :
    pairTerminalWhenFull ps = terminalWhenFull sts := by
  induction sts generalizing ps with
  | nil =>
    simp only [stagePairs] at h
    injection h with h
    subst h
    rfl
  | cons st rest ih =>
    obtain ⟨p, ps', hps', hp, hrest⟩ := stagePairs_cons_ok st rest d i ps h
    subst hps'
    cases rest with
    | nil =>
      simp only [stagePairs] at hrest
      injection hrest with hrest
      subst hrest
      cases st with
      | Memory me wf =>
        simp only [stagePair] at hp
        injection hp with hp
        subst hp
        rfl
      | DiskV1 ms wf =>
        cases d with
        | none => exact absurd hp (by simp [stagePair])
        | some dd =>
          simp only [stagePair] at hp
          injection hp with hp
          subst hp
          rfl
      | DiskV2 ms wf =>
        cases d with
        | none => exact absurd hp (by simp [stagePair])
        | some dd =>
          simp only [stagePair] at hp
          injection hp with hp
          subst hp
          rfl
    | cons q rest' =>
      obtain ⟨p', ps'', hshape, _, _⟩ := stagePairs_cons_ok q rest' d i ps' hrest
      subst hshape
      have h1 : pairTerminalWhenFull (p :: p' :: ps'') = pairTerminalWhenFull (p' :: ps'') := rfl
      have h2 : terminalWhenFull (st :: q :: rest') = terminalWhenFull (q :: rest') := rfl
      rw [h1, h2]
      exact ih (p' :: ps'') hrest

lemma setTerminalPair_cons_shape (wf : WhenFull) (p : BuiltStage × WhenFull)
    (ps : List (BuiltStage × WhenFull)) :
    ∃ q qs, setTerminalPairWhenFull wf (p :: ps) = q :: qs := by
  cases ps with
  | nil =>
    obtain ⟨st, w⟩ := p
    exact ⟨(st, wf), [], rfl⟩
  | cons p' ps' =>
    exact ⟨p, setTerminalPairWhenFull wf (p' :: ps'), rfl⟩

lemma degradeTerminal_overflow (ps : List (BuiltStage × WhenFull))
    (h : pairTerminalWhenFull ps = some WhenFull.Overflow) :
    degradeTerminal ps = setTerminalPairWhenFull WhenFull.Block ps := by
  induction ps with
  | nil => exact absurd h (by simp [pairTerminalWhenFull])
  | cons p rest ih =>
    cases rest with
    | nil =>
      obtain ⟨st, wf⟩ := p
      simp only [pairTerminalWhenFull] at h
      injection h with h
      subst h
      rfl
    | cons q rest' =>
      have h1 : degradeTerminal (p :: q :: rest') = p :: degradeTerminal (q :: rest') := rfl
      have h2 : setTerminalPairWhenFull WhenFull.Block (p :: q :: rest') =
          p :: setTerminalPairWhenFull WhenFull.Block (q :: rest') := rfl
      rw [h1, h2, ih h]

lemma degradeTerminal_setBlock (ps : List (BuiltStage × WhenFull)) :
    degradeTerminal (setTerminalPairWhenFull WhenFull.Block ps) =
      setTerminalPairWhenFull WhenFull.Block ps := by
  induction ps with
  | nil => rfl
  | cons p rest ih =>
    cases rest with
    | nil =>
      obtain ⟨st, wf⟩ := p
      rfl
    | cons q rest' =>
      have h2 : setTerminalPairWhenFull WhenFull.Block (p :: q :: rest') =
          p :: setTerminalPairWhenFull WhenFull.Block (q :: rest') := rfl
      obtain ⟨y, ys, hshape⟩ := setTerminalPair_cons_shape WhenFull.Block q rest'
      rw [h2, hshape]
      have h3 : degradeTerminal (p :: y :: ys) = p :: degradeTerminal (y :: ys) := rfl
      rw [h3, ← hshape, ih]

lemma stagePairs_none_disk (sts : List BufferType) (i : String)
    (h : ∃ st ∈ sts, st.isDisk = true) :
    stagePairs sts none i = Except.error BufferBuildError.RequiresDataDir := by
  induction sts with
  | nil => simp at h
  | cons st rest ih =>
    obtain ⟨x, hx, hdisk⟩ := h
    rw [stagePairs_cons]
    rcases List.mem_cons.mp hx with heq | hmem
    · subst heq
      cases x with
      | Memory me wf => simp [BufferType.isDisk] at hdisk
      | DiskV1 ms wf => rfl
      | DiskV2 ms wf => rfl
    · cases st with
      | Memory me wf =>
        rw [ih ⟨x, hmem, hdisk⟩]
        rfl
      | DiskV1 ms wf => rfl
      | DiskV2 ms wf => rfl

lemma stagePairs_memory (sts : List BufferType) (d : Option String) (i : String)
    (h : ∀ st ∈ sts, st.isDisk = false) :
    ∃ ps, stagePairs sts d i = Except.ok ps ∧ ps.length = sts.length := by
  induction sts with
  | nil => exact ⟨[], rfl, rfl⟩
  | cons st rest ih =>
    obtain ⟨ps, hps, hlen⟩ := ih (fun x hx => h x (List.mem_cons_of_mem st hx))
    cases st with
    | Memory me wf =>
      refine ⟨(BuiltStage.memory me, wf) :: ps, ?_, by simp [hlen]⟩
      rw [stagePairs_cons, hps]
      rfl
    | DiskV1 ms wf => simpa [BufferType.isDisk] using h _ (List.mem_cons_self _ _)
    | DiskV2 ms wf => simpa [BufferType.isDisk] using h _ (List.mem_cons_self _ _)

lemma visit_map_impl_roundtrip (st : BufferType) :
    visit_map_impl st.serializeEntries = Except.ok st := by
  cases st with
  | Memory me wf =>
    obtain ⟨n, hn⟩ := me
    cases wf <;>
      simp [visit_map_impl, BufferType.serializeEntries, WhenFull.serializeStr, readFields,
        stepField, parseBufferTypeKind, parseNonZeroUsize, parseWhenFull, finishFields,
        whenFullDefault, hn]
  | DiskV1 ms wf =>
    obtain ⟨n, hn⟩ := ms
    cases wf <;>
      simp [visit_map_impl, BufferType.serializeEntries, WhenFull.serializeStr, readFields,
        stepField, parseBufferTypeKind, parseNonZeroU64, parseWhenFull, finishFields,
        whenFullDefault, hn]
  | DiskV2 ms wf =>
    obtain ⟨n, hn⟩ := ms
    cases wf <;>
      simp [visit_map_impl, BufferType.serializeEntries, WhenFull.serializeStr, readFields,
        stepField, parseBufferTypeKind, parseNonZeroU64, parseWhenFull, finishFields,
        whenFullDefault, hn]

lemma visit_seq_roundtrip (sts : List BufferType) :
    visit_seq (sts.map BufferType.serializeEntries) = Except.ok sts := by
  induction sts with
  | nil => rfl
  | cons st rest ih =>
    simp only [List.map_cons, visit_seq, visit_map_impl_roundtrip, ih]

/-- Claim C1.  The claim states that `BufferConfig::build` (or a
validation step feeding it) rejects a stage list containing two disk
stages of the same variant.  The code performs no such validation — the
restriction exists only as a TODO comment on `BufferConfig` — so building
a topology with two `DiskV2` stages succeeds, registering both stages
with the same `id` and `data_dir` (the very file contention the TODO
warns about).  This theorem evaluates the build at that failing input. -/
theorem c1_build_accepts_duplicate_disk_variants :
    BufferConfig.build
      ⟨[BufferType.DiskV2 ⟨1024, by decide⟩ WhenFull.Block,
        BufferType.DiskV2 ⟨1024, by decide⟩ WhenFull.Block]⟩
      (some "/data") "sink" =
    Except.ok ⟨[(BuiltStage.diskV2 "sink" "/data" ⟨1024, by decide⟩, WhenFull.Block),
      (BuiltStage.diskV2 "sink" "/data" ⟨1024, by decide⟩, WhenFull.Block)]⟩ := rfl

/-- Claim C2, counterexample.  The claim states that deserializing a
sequence of stage objects never yields a `BufferConfig` with zero stages;
but `visit_seq` accepts the empty sequence and yields exactly that. -/
theorem c2_empty_seq_accepted_counterexample :
    BufferConfig.deserialize (DeValue.seq []) = Except.ok ⟨[]⟩ := rfl

/-- Claim C2, amended.  An accepted input yields a `BufferConfig` with
zero stages exactly when the input is the empty sequence: map input
always yields one stage, and sequence input yields one stage per element
(so only empty scalar input is rejected, by the format layer before the
visitor runs; the empty list is accepted with zero stages). -/
theorem c2_stages_empty_iff_empty_seq (v : DeValue) (c : BufferConfig)
    (h : BufferConfig.deserialize v = Except.ok c) :
    c.stages = [] ↔ v = DeValue.seq [] := by
  cases v with
  | map entries =>
    simp only [BufferConfig.deserialize] at h
    cases hm : visit_map_impl entries with
    | error e => rw [hm] at h; exact absurd h (by simp)
    | ok st =>
      rw [hm] at h
      injection h with h
      subst h
      simp
  | seq elems =>
    simp only [BufferConfig.deserialize] at h
    cases hs : visit_seq elems with
    | error e => rw [hs] at h; exact absurd h (by simp)
    | ok sts =>
      rw [hs] at h
      injection h with h
      subst h
      have hlen := (visit_seq_forall2 elems sts hs).length_eq
      show sts = [] ↔ DeValue.seq elems = DeValue.seq []
      constructor
      · intro hnil
        have helems : elems = [] := by
          apply List.length_eq_zero.mp
          rw [hlen, hnil]
          rfl
        rw [helems]
      · intro hseq
        injection hseq with hseq
        subst hseq
        simp only [visit_seq] at hs
        injection hs with hs
        exact hs.symm

/-- Claim C2, witness for the amended theorem. -/
theorem c2_stages_empty_iff_empty_seq_witness :
    (⟨[]⟩ : BufferConfig).stages = [] ↔ DeValue.seq [] = DeValue.seq [] :=
  c2_stages_empty_iff_empty_seq (DeValue.seq []) ⟨[]⟩ rfl

/-- Claim C3.  For every configuration whose terminal stage has
`when_full = overflow`, building it yields exactly the same result as
building the configuration with the terminal stage's policy set to
`block`: the builder degrades a terminal `overflow` to `block`. -/
theorem c3_terminal_overflow_builds_as_block (c : BufferConfig) (d : Option String)
    (i : String) (h : terminalWhenFull c.stages = some WhenFull.Overflow) :
    BufferConfig.build c d i =
      BufferConfig.build ⟨setTerminalWhenFull WhenFull.Block c.stages⟩ d i := by
  rw [build_eq, build_eq]
  have hset : (⟨setTerminalWhenFull WhenFull.Block c.stages⟩ : BufferConfig).stages =
      setTerminalWhenFull WhenFull.Block c.stages := rfl
  rw [hset, stagePairs_setTerminal]
  cases hps : stagePairs c.stages d i with
  | error e => rfl
  | ok ps =>
    simp only []
    have hterm : pairTerminalWhenFull ps = some WhenFull.Overflow := by
      rw [stagePairs_terminalWF c.stages d i ps hps]
      exact h
    cases ps with
    | nil => exact absurd hterm (by simp [pairTerminalWhenFull])
    | cons p ps' =>
      obtain ⟨y, ys, hshape⟩ := setTerminalPair_cons_shape WhenFull.Block p ps'
      rw [topologyBuild_cons, hshape, topologyBuild_cons, ← hshape,
        degradeTerminal_setBlock, degradeTerminal_overflow _ hterm]

/-- Claim C3, witness. -/
theorem c3_terminal_overflow_builds_as_block_witness :
    BufferConfig.build ⟨[BufferType.Memory ⟨500, by decide⟩ WhenFull.Overflow]⟩ none "w" =
      BufferConfig.build ⟨setTerminalWhenFull WhenFull.Block
        [BufferType.Memory ⟨500, by decide⟩ WhenFull.Overflow]⟩ none "w" :=
  c3_terminal_overflow_builds_as_block
    ⟨[BufferType.Memory ⟨500, by decide⟩ WhenFull.Overflow]⟩ none "w" rfl

/-- Claim C4.  When parsing a stage object, an absent `type` defaults to
memory, an absent `max_events` to 500 and an absent `when_full` to
`block` (first and second conjuncts), and the single-stage input
`max_events: 100` parses to exactly one stage
`Memory{max_events: 100, when_full: block}` (third conjunct). -/
theorem c4_single_stage_defaults :
    visit_map_impl [] = Except.ok (BufferType.Memory ⟨500, by decide⟩ WhenFull.Block)
  ∧ (∀ (me : Option NonZeroUsize) (wf : Option WhenFull),
        finishFields ⟨none, me, none, wf⟩ =
          Except.ok (BufferType.Memory (me.getD memory_buffer_default_max_events)
            (wf.getD whenFullDefault)))
  ∧ BufferConfig.deserialize (DeValue.map [("max_events", RawValue.nat 100)]) =
      Except.ok ⟨[BufferType.Memory ⟨100, by decide⟩ WhenFull.Block]⟩ :=
  ⟨rfl, fun _ _ => rfl, rfl⟩

/-- Claim C5.  Sizing fields are validated against the resolved stage
kind: a stage resolving to memory (explicitly or by defaulting) rejects a
present `max_size` with an unknown-field error; a disk stage rejects a
present `max_events` and reports a missing `max_size` with a
missing-field error; and the concrete input
`max_size: 100, max_events: 42` fails with unknown field `max_size`. -/
theorem c5_sizing_fields_validated_by_kind :
    (∀ s : FieldState, (s.kind = none ∨ s.kind = some BufferTypeKind.Memory) →
        s.max_size.isSome = true →
        finishFields s = Except.error
          (DeError.unknownField "max_size" ["type", "max_events", "when_full"]))
  ∧ (∀ s : FieldState,
        (s.kind = some BufferTypeKind.DiskV1 ∨ s.kind = some BufferTypeKind.DiskV2) →
        s.max_events.isSome = true →
        finishFields s = Except.error
          (DeError.unknownField "max_events" ["type", "max_size", "when_full"]))
  ∧ (∀ s : FieldState,
        (s.kind = some BufferTypeKind.DiskV1 ∨ s.kind = some BufferTypeKind.DiskV2) →
        s.max_events = none → s.max_size = none →
        finishFields s = Except.error (DeError.missingField "max_size"))
  ∧ visit_map_impl [("max_size", RawValue.nat 100), ("max_events", RawValue.nat 42)] =
      Except.error (DeError.unknownField "max_size" ["type", "max_events", "when_full"]) := by
  refine ⟨?_, ?_, ?_, rfl⟩
  · intro s hkind hsize
    rcases hkind with hk | hk <;> simp [finishFields, hk, hsize]
  · intro s hkind hev
    rcases hkind with hk | hk <;> simp [finishFields, hk, hev]
  · intro s hkind hev hsize
    rcases hkind with hk | hk <;> simp [finishFields, hk, hev, hsize]

/-- Claim C5, witness. -/
theorem c5_sizing_fields_validated_by_kind_witness :
    finishFields ⟨none, none, some ⟨100, by decide⟩, none⟩ =
      Except.error (DeError.unknownField "max_size" ["type", "max_events", "when_full"])
  ∧ finishFields ⟨some BufferTypeKind.DiskV1, some ⟨42, by decide⟩, none, none⟩ =
      Except.error (DeError.unknownField "max_events" ["type", "max_size", "when_full"])
  ∧ finishFields ⟨some BufferTypeKind.DiskV2, none, none, none⟩ =
      Except.error (DeError.missingField "max_size") :=
  ⟨c5_sizing_fields_validated_by_kind.1 _ (Or.inl rfl) rfl,
   c5_sizing_fields_validated_by_kind.2.1 _ (Or.inl rfl) rfl,
   c5_sizing_fields_validated_by_kind.2.2.1 _ (Or.inr rfl) rfl rfl⟩

/-- Claim C6.  Building any stage list containing a disk stage with
`data_dir = None` fails with `RequiresDataDir`; a non-empty stage list of
memory stages only builds without any `data_dir`. -/
theorem c6_disk_requires_data_dir :
    (∀ (c : BufferConfig) (i : String), (∃ st ∈ c.stages, st.isDisk = true) →
        BufferConfig.build c none i = Except.error BufferBuildError.RequiresDataDir)
  ∧ (∀ (c : BufferConfig) (i : String), c.stages ≠ [] →
        (∀ st ∈ c.stages, st.isDisk = false) →
        (BufferConfig.build c none i).isOk = true) := by
  constructor
  · intro c i h
    rw [build_eq, stagePairs_none_disk c.stages i h]
  · intro c i hne hmem
    rw [build_eq]
    obtain ⟨ps, hps, hlen⟩ := stagePairs_memory c.stages none i hmem
    rw [hps]
    cases ps with
    | nil => exact absurd (List.length_eq_zero.mp hlen.symm) hne
    | cons p ps' =>
      show (TopologyBuilder.build ⟨p :: ps'⟩).isOk = true
      rw [topologyBuild_cons]
      rfl

/-- Claim C6, witness. -/
theorem c6_disk_requires_data_dir_witness :
    BufferConfig.build ⟨[BufferType.DiskV1 ⟨1024, by decide⟩ WhenFull.Block]⟩ none "w" =
      Except.error BufferBuildError.RequiresDataDir
  ∧ (BufferConfig.build ⟨[BufferType.Memory ⟨500, by decide⟩ WhenFull.Block]⟩
      none "w").isOk = true :=
  ⟨c6_disk_requires_data_dir.1 ⟨[BufferType.DiskV1 ⟨1024, by decide⟩ WhenFull.Block]⟩ "w"
      ⟨BufferType.DiskV1 ⟨1024, by decide⟩ WhenFull.Block, List.mem_cons_self _ _, rfl⟩,
   c6_disk_requires_data_dir.2 ⟨[BufferType.Memory ⟨500, by decide⟩ WhenFull.Block]⟩ "w"
      (by simp)
      (fun st hst => by
        rw [List.mem_singleton] at hst
        subst hst
        rfl)⟩

/-- Claim C7.  The key loop rejects any key outside
`{type, max_events, max_size, when_full}` — with the unknown-field error
at the offending key — and rejects any stage object in which a recognized
key appears more than once — with the duplicate-field error at the
repeated key. -/
theorem c7_unknown_and_duplicate_keys_rejected :
    (∀ entries : List (String × RawValue),
        (∃ p ∈ entries, p.1 ∉ ALL_FIELDS) → (visit_map_impl entries).isError = true)
  ∧ (∀ (s : FieldState) (k : String) (v : RawValue) (rest : List (String × RawValue)),
        k ∉ ALL_FIELDS →
        readFields ((k, v) :: rest) s = Except.error (DeError.unknownField k ALL_FIELDS))
  ∧ (∀ (entries : List (String × RawValue)) (k : String), k ∈ ALL_FIELDS →
        2 ≤ countKey entries k → (visit_map_impl entries).isError = true)
  ∧ (∀ (s : FieldState) (k : String) (v : RawValue) (rest : List (String × RawValue)),
        fieldIsSet s k = true →
        readFields ((k, v) :: rest) s = Except.error (DeError.duplicateField k)) := by
  refine ⟨?_, ?_, ?_, ?_⟩
  · intro entries h
    exact visit_map_impl_isError entries (readFields_unknown_isError entries {} h)
  · intro s k v rest hk
    rw [readFields_cons, stepField_unknown s k v hk]
  · intro entries k hk hc
    exact visit_map_impl_isError entries
      (readFields_dup_isError entries {} k hk (Or.inl hc))
  · intro s k v rest hset
    rw [readFields_cons, stepField_dup s k v hset]

/-- Claim C7, witness. -/
theorem c7_unknown_and_duplicate_keys_rejected_witness :
    (visit_map_impl [("foo", RawValue.nat 314)]).isError = true
  ∧ readFields [("foo", RawValue.nat 314)] {} =
      Except.error (DeError.unknownField "foo" ALL_FIELDS)
  ∧ (visit_map_impl
      [("type", RawValue.str "memory"), ("type", RawValue.str "memory")]).isError = true
  ∧ readFields [("type", RawValue.str "memory")]
        ⟨some BufferTypeKind.Memory, none, none, none⟩ =
      Except.error (DeError.duplicateField "type") :=
  ⟨c7_unknown_and_duplicate_keys_rejected.1 _
      ⟨("foo", RawValue.nat 314), List.mem_cons_self _ _, by decide⟩,
   c7_unknown_and_duplicate_keys_rejected.2.1 {} "foo" (RawValue.nat 314) [] (by decide),
   c7_unknown_and_duplicate_keys_rejected.2.2.1 _ "type" (by decide) (by decide),
   c7_unknown_and_duplicate_keys_rejected.2.2.2 _ "type" (RawValue.str "memory") [] rfl⟩

/-- Claim C8, counterexample.  The claim states that zero or absent
required sizing surfaces as the `InvalidMaxEvents` / `InvalidMaxSize`
build errors.  In the code these inputs never reach the builder: they are
rejected during deserialization with invalid-value or missing-field
errors (`BufferBuildError` does not even have an `InvalidMaxSize`
variant, and its `InvalidMaxEvents` variant is never constructed in
`config.rs`). -/
theorem c8_zero_sizing_is_parse_error_counterexample :
    visit_map_impl [("max_events", RawValue.nat 0)] =
      Except.error (DeError.invalidValue "max_events")
  ∧ visit_map_impl [("type", RawValue.str "disk"), ("max_size", RawValue.nat 0)] =
      Except.error (DeError.invalidValue "max_size")
  ∧ visit_map_impl [("type", RawValue.str "disk")] =
      Except.error (DeError.missingField "max_size") := ⟨rfl, rfl, rfl⟩

/-- Claim C8, amended.  Sizing values must be positive: a stage with
`max_events: 0` or `max_size: 0` is rejected during parsing with an
invalid-value error, the parsed representation holds only non-zero
integers, and the zero/absent cases surface as deserialization errors —
not as builder errors: `BufferBuildError` consists only of
`RequiresDataDir`, `FailedToBuildTopology` and `InvalidMaxEvents`. -/
theorem c8_zero_sizing_rejected_at_parse :
    (∀ rest : List (String × RawValue),
        visit_map_impl (("max_events", RawValue.nat 0) :: rest) =
          Except.error (DeError.invalidValue "max_events"))
  ∧ (∀ rest : List (String × RawValue),
        visit_map_impl (("max_size", RawValue.nat 0) :: rest) =
          Except.error (DeError.invalidValue "max_size"))
  ∧ (∀ st : BufferType, 0 < st.sizing)
  ∧ (∀ e : BufferBuildError,
        e = BufferBuildError.RequiresDataDir ∨
          e = BufferBuildError.FailedToBuildTopology ∨
          e = BufferBuildError.InvalidMaxEvents) := by
  refine ⟨fun rest => rfl, fun rest => rfl, fun st => ?_, fun e => ?_⟩
  · cases st with
    | Memory me wf => exact me.2
    | DiskV1 ms wf => exact ms.2
    | DiskV2 ms wf => exact ms.2
  · cases e <;> simp

/-- Claim C9.  Parsing a list of stage objects yields a `BufferConfig`
whose stages correspond to the input elements pointwise and in order
(first conjunct), and the concrete two-element input parses to two memory
stages, the second with `drop_newest` (second conjunct). -/
theorem c9_seq_parses_in_order :
    (∀ (elems : List (List (String × RawValue))) (c : BufferConfig),
        BufferConfig.deserialize (DeValue.seq elems) = Except.ok c →
        List.Forall₂ (fun e st => visit_map_impl e = Except.ok st) elems c.stages)
  ∧ BufferConfig.deserialize (DeValue.seq
      [[("max_events", RawValue.nat 42)],
       [("max_events", RawValue.nat 100), ("when_full", RawValue.str "drop_newest")]]) =
      Except.ok ⟨[BufferType.Memory ⟨42, by decide⟩ WhenFull.Block,
                  BufferType.Memory ⟨100, by decide⟩ WhenFull.DropNewest]⟩ := by
  constructor
  · intro elems c h
    simp only [BufferConfig.deserialize] at h
    cases hs : visit_seq elems with
    | error e => rw [hs] at h; exact absurd h (by simp)
    | ok sts =>
      rw [hs] at h
      injection h with h
      subst h
      exact visit_seq_forall2 elems sts hs
  · rfl

/-- Claim C9, witness. -/
theorem c9_seq_parses_in_order_witness :
    List.Forall₂ (fun e st => visit_map_impl e = Except.ok st)
      [[("max_events", RawValue.nat 42)]]
      (BufferConfig.mk [BufferType.Memory ⟨42, by decide⟩ WhenFull.Block]).stages :=
  c9_seq_parses_in_order.1 [[("max_events", RawValue.nat 42)]]
    ⟨[BufferType.Memory ⟨42, by decide⟩ WhenFull.Block]⟩ rfl

/-- Claim C10.  Serialization round-trips: every `BufferConfig` with a
non-empty stage list serializes successfully (one stage as a bare stage
object, several as a list) and deserializing the result yields an equal
config; a config with zero stages fails to serialize with an error. -/
theorem c10_serialize_roundtrip :
    (∀ c : BufferConfig, c.stages ≠ [] →
        ∃ v, BufferConfig.serialize c = Except.ok v ∧
          BufferConfig.deserialize v = Except.ok c)
  ∧ ∀ c : BufferConfig, c.stages = [] →
      BufferConfig.serialize c =
        Except.error "buffer config cannot be empty when serializing" := by
  constructor
  · intro c hne
    obtain ⟨sts⟩ := c
    cases sts with
    | nil => exact absurd rfl hne
    | cons s1 rest =>
      cases rest with
      | nil =>
        refine ⟨DeValue.map s1.serializeEntries, rfl, ?_⟩
        simp only [BufferConfig.deserialize]
        rw [visit_map_impl_roundtrip]
      | cons s2 rest' =>
        refine ⟨DeValue.seq ((s1 :: s2 :: rest').map BufferType.serializeEntries), rfl, ?_⟩
        simp only [BufferConfig.deserialize]
        rw [visit_seq_roundtrip]
  · intro c h
    obtain ⟨sts⟩ := c
    cases sts with
    | nil => rfl
    | cons s1 rest => exact absurd h (by simp)

/-- Claim C10, witness. -/
theorem c10_serialize_roundtrip_witness :
    ∃ v, BufferConfig.serialize
        ⟨[BufferType.Memory ⟨500, by decide⟩ WhenFull.Block]⟩ = Except.ok v ∧
      BufferConfig.deserialize v =
        Except.ok ⟨[BufferType.Memory ⟨500, by decide⟩ WhenFull.Block]⟩ :=
  c10_serialize_roundtrip.1 ⟨[BufferType.Memory ⟨500, by decide⟩ WhenFull.Block]⟩ (by simp)
